import Mathlib

/-!
Verification of the staged-change diff core of `describe` (src/main.go):
the path classifier `shouldIgnorePath`, the binary-content detector
`isBinary`, the unified-diff synthesizer `generateUnifiedDiffContent`,
and the collector/budget logic of `getStagedChanges`.

Go `int` values in the source are modelled with `Nat` where they are
provably non-negative, and with `Int` where the source can see negative
values (the `maxLines` configuration value).  Each place where Go integer
subtraction could go negative but is modelled with truncated `Nat`
subtraction is justified by a comment at the definition.
-/

namespace Describe

/-- Models Go `strings.Split(s, sep)` for a one-character separator `sep`,
on the character list of the string.  `strings.Split("", sep) = [""]`,
hence the empty list of characters maps to `[[]]`. -/
def splitOnChar (sep : Char) : List Char → List (List Char)
  | [] => [[]]
  | c :: cs =>
    if c = sep then [] :: splitOnChar sep cs
    else
      match splitOnChar sep cs with
      | [] => [[c]]
      | l :: ls => (c :: l) :: ls

/-- Interleaves `sep` between the chunks; inverse of `splitOnChar`. -/
def joinChar (sep : Char) : List (List Char) → List Char
  | [] => []
  | [l] => l
  | l :: l' :: ls => l ++ sep :: joinChar sep (l' :: ls)

/-- The line lists used by `generateUnifiedDiffContent`
(src/main.go:491-500): `strings.Split(content, "\n")`, overridden to the
empty slice when the content is the empty string. -/
def splitLines (s : String) : List String :=
  if s = "" then [] else (splitOnChar '\n' s.data).map String.mk

/-- The common-prefix loop of src/main.go:513-515: the number of leading
positions at which the two line lists agree. -/
def commonPrefixLen : List String → List String → Nat
  | a :: as, b :: bs => if a = b then commonPrefixLen as bs + 1 else 0
  | _, _ => 0

/-- The common-suffix loop of src/main.go:517-523: counts matching lines
from the tail, stopping at the first mismatch or when `minLen - prefix`
positions have been consumed (so the prefix and suffix windows never
overlap).  Counting matches from the tail up to the first mismatch is
`commonPrefixLen` of the reversed lists; the loop bound caps it. -/
def diffSuffixLen (o n : List String) : Nat :=
  min (min o.length n.length - commonPrefixLen o n)
    (commonPrefixLen o.reverse n.reverse)

/-- src/main.go:538-541: `oldStart = commonPrefix; oldStart -= 3; clamp at 0`.
Truncated `Nat` subtraction is exactly the Go clamp. -/
def oldStartIdx (o n : List String) : Nat := commonPrefixLen o n - 3

/-- src/main.go:542-545: same computation for the new side. -/
def newStartIdx (o n : List String) : Nat := commonPrefixLen o n - 3

/-- src/main.go:547-550:
`oldEnd = min(len(oldLines), commonPrefix + oldCount + contextLines)` with
`oldCount = len(oldLines) - commonPrefix - commonSuffix` (non-negative in
Go because the two loops guarantee `commonPrefix + commonSuffix ≤ minLen`,
so `Nat` subtraction agrees). -/
def oldEndIdx (o n : List String) : Nat :=
  min o.length
    (commonPrefixLen o n + (o.length - commonPrefixLen o n - diffSuffixLen o n) + 3)

/-- src/main.go:551-554: mirror of `oldEndIdx` on the new side. -/
def newEndIdx (o n : List String) : Nat :=
  min n.length
    (commonPrefixLen o n + (n.length - commonPrefixLen o n - diffSuffixLen o n) + 3)

/-- The hunk header of src/main.go:560-561:
`fmt.Sprintf("@@ -%d,%d +%d,%d @@\n", oldStart+1, oldCount, newStart+1, newCount)`.
All four arguments are non-negative in Go, so `Nat.repr` matches `%d`. -/
def mkHunkHeader (os oc ns nc : Nat) : String :=
  "@@ -" ++ toString os ++ "," ++ toString oc ++ " +" ++ toString ns ++ ","
    ++ toString nc ++ " @@\n"

/-- One of the emission loops of src/main.go:563-586:
`for i := lo; i < hi; i++ { result.WriteString(tag + lines[i] + "\n") }`
where `hi` is the conjunction of the loop's upper bounds, folded with `min`.
If the Go bound is negative the loop body never runs, and the `Nat`-clamped
bound `0 ≤ lo` gives the same empty range. -/
def emitRange (tag : String) (lines : List String) (lo hi : Nat) : String :=
  String.join ((List.range' lo (hi - lo)).map
    (fun i => tag ++ lines.getD i "" ++ "\n"))

/-- As `emitRange`, with the additional `if i < len(lines)` guard that the
removed-lines and added-lines loops carry (src/main.go:570, 577). -/
def emitRangeChecked (tag : String) (lines : List String) (lo hi : Nat) : String :=
  String.join (((List.range' lo (hi - lo)).filter
      (fun i => decide (i < lines.length))).map
    (fun i => tag ++ lines.getD i "" ++ "\n"))

/-- The four emission loops of src/main.go:563-586, in source order:
context before the change, removed lines, added lines, context after.
`oldCount`/`newCount` at this point in the source have been reassigned to
`oldEnd - oldStart` / `newEnd - newStart` (src/main.go:556-557).  The
removed-lines bound `commonPrefix + oldCount - contextLines` can be
negative in Go; since the loop starts at `commonPrefix ≥ 0`, a negative
bound and the `Nat`-clamped bound `0` both give an empty loop. -/
def hunkBody (o n : List String) : String :=
  emitRange " " o (oldStartIdx o n) (min (commonPrefixLen o n) (oldEndIdx o n))
  ++ emitRangeChecked "-" o (commonPrefixLen o n)
      (min (commonPrefixLen o n + (oldEndIdx o n - oldStartIdx o n) - 3)
        (o.length - diffSuffixLen o n))
  ++ emitRangeChecked "+" n (commonPrefixLen o n)
      (min (commonPrefixLen o n + (newEndIdx o n - newStartIdx o n) - 3)
        (n.length - diffSuffixLen o n))
  ++ emitRange " " o (o.length - diffSuffixLen o n) (min (oldEndIdx o n) o.length)

/-- The non-empty branch of src/main.go:536-588: hunk header followed by
the four emission loops. -/
def renderHunk (o n : List String) : String :=
  mkHunkHeader (oldStartIdx o n + 1) (oldEndIdx o n - oldStartIdx o n)
    (newStartIdx o n + 1) (newEndIdx o n - newStartIdx o n)
  ++ hunkBody o n

/-- src/main.go:490-589, `generateUnifiedDiffContent(oldContent, newContent)`:
split both contents into lines, compute the common prefix/suffix window,
return `""` when the changed region is empty on both sides
(src/main.go:532-534), and otherwise render the single hunk. -/
def generateUnifiedDiffContent (oldContent newContent : String) : String :=
  if (splitLines oldContent).length
        - commonPrefixLen (splitLines oldContent) (splitLines newContent)
        - diffSuffixLen (splitLines oldContent) (splitLines newContent) = 0
      ∧ (splitLines newContent).length
        - commonPrefixLen (splitLines oldContent) (splitLines newContent)
        - diffSuffixLen (splitLines oldContent) (splitLines newContent) = 0
  then ""
  else renderHunk (splitLines oldContent) (splitLines newContent)

/-- src/main.go:52-66: the built-in list of ignored directory names. -/
def ignoredDirs : List String :=
  ["vendor", "node_modules", ".git", "dist", "build", "target", ".next",
   ".nuxt", "__pycache__", ".pytest_cache", ".tox", "venv", ".venv"]

/-- src/main.go:69-79, `shouldIgnorePath(path)`: split the slash-form of
the path on `"/"` (`filepath.ToSlash` is the identity on slash-separated
paths) and report whether any segment equals an entry of `ignoredDirs`. -/
def shouldIgnorePath (path : String) : Bool :=
  ((splitOnChar '/' path.data).map String.mk).any
    (fun part => ignoredDirs.any (fun ignored => part == ignored))

/-- src/main.go:110: the byte classes Go counts as printable:
tab, LF, CR, or a byte in `[0x20, 0x7E]`. -/
def printableByte (b : Nat) : Bool :=
  b == 9 || b == 10 || b == 13 || (32 ≤ b && b ≤ 126)

/-- src/main.go:82-116, `isBinary(path)`.  The file system is abstracted:
`none` models a path whose `os.Open` fails (the function returns the error),
`some bytes` models a readable file with those content bytes; the sample is
the first `min(8192, len)` bytes, as read by `f.Read` on an 8192-byte
buffer.  The ratio test `float64(printable)/float64(len(buf)) < 0.95` is
modelled by the exact comparison `100·printable < 95·len`: with
`printable ≤ len ≤ 8192` both operands convert exactly to `float64`, the
division is correctly rounded with error below `2⁻⁵²`, and any sample
ratio other than exactly `19/20` differs from `0.95` by at least
`1/(20·8192)` (while `19/20` compares `false` under both readings), so
the floating comparison, the exact rational comparison and the
cross-multiplied integer comparison agree on every reachable input. -/
def isBinary (file : Option (List Nat)) : Except Unit Bool :=
  match file with
  | none => Except.error ()
  | some bytes =>
    if (bytes.take 8192).length = 0 then Except.ok false
    else if (bytes.take 8192).contains 0 then Except.ok true
    else Except.ok
      (decide (100 * (bytes.take 8192).countP printableByte
        < 95 * (bytes.take 8192).length))

/-- The values of go-git's `StatusCode` (' ', '?', 'M', 'A', 'D', 'R',
'C', 'U') that `getStagedChanges` branches on. -/
inductive StagingState where
  | Unmodified
  | Untracked
  | Modified
  | Added
  | Deleted
  | Renamed
  | Copied
  | UpdatedButUnmerged
deriving DecidableEq

/-- One work-tree status entry as seen by the collector loop of
src/main.go:355-381, together with the data the collector resolves for it:
the bytes the binary detector would read at `path` (`none` = open fails),
and the HEAD/index contents and abbreviated-hash inputs used by
src/main.go:404-457 (content degraded to `""` on a lookup miss, as in the
source). -/
structure StatusEntry where
  path : String
  staging : StagingState
  fileBytes : Option (List Nat)
  headContent : String
  stagedContent : String
  headHash : String
  stagedHash : String

/-- The filter loop body of src/main.go:355-381: an entry is kept unless
it is Unmodified/Untracked, its path is ignored, or it is not Deleted and
the binary detector reports binary.  A detector error is logged and falls
through to inclusion (src/main.go:370-371). -/
def includeEntry (e : StatusEntry) : Bool :=
  if e.staging = .Unmodified ∨ e.staging = .Untracked then false
  else if shouldIgnorePath e.path then false
  else if e.staging ≠ .Deleted then
    match isBinary e.fileBytes with
    | .error _ => true
    | .ok binary => !binary
  else true

/-- The per-file diff header of src/main.go:436-453; `headHash`/`stagedHash`
model the 40-character `Hash.String()` values, abbreviated with `[:7]`. -/
def fileHeader (e : StatusEntry) : String :=
  if e.staging = .Added then
    "diff --git a/" ++ e.path ++ " b/" ++ e.path ++ "\n"
      ++ "new file mode 100644\n"
      ++ "index 0000000.." ++ e.stagedHash.take 7 ++ "\n"
      ++ "--- /dev/null\n"
      ++ "+++ b/" ++ e.path ++ "\n"
  else if e.staging = .Deleted then
    "diff --git a/" ++ e.path ++ " b/" ++ e.path ++ "\n"
      ++ "deleted file mode 100644\n"
      ++ "index " ++ e.headHash.take 7 ++ "..0000000\n"
      ++ "--- a/" ++ e.path ++ "\n"
      ++ "+++ /dev/null\n"
  else
    "diff --git a/" ++ e.path ++ " b/" ++ e.path ++ "\n"
      ++ "index " ++ e.headHash.take 7 ++ ".." ++ e.stagedHash.take 7 ++ " 100644\n"
      ++ "--- a/" ++ e.path ++ "\n"
      ++ "+++ b/" ++ e.path ++ "\n"

/-- The per-file block appended to `patchBuf` (src/main.go:436-457):
header followed by the synthesized hunk. -/
def fileBlock (e : StatusEntry) : String :=
  fileHeader e ++ generateUnifiedDiffContent e.headContent e.stagedContent

/-- Sequential `WriteString` calls on a `strings.Builder`: the
concatenation of the blocks in order. -/
def concatBlocks : List String → String
  | [] => ""
  | b :: bs => b ++ concatBlocks bs

/-- The document `patchBuf.String()` assembled by src/main.go:400-460:
the blocks of the entries that survive the filter, in iteration order. -/
def renderedDoc (entries : List StatusEntry) : String :=
  concatBlocks ((entries.filter includeEntry).map fileBlock)

/-- src/main.go:461: `strings.Count(patchStr, "\n")`. -/
def countNewlines (s : String) : Nat :=
  s.data.countP (fun c => c == '\n')

/-- The budget error of src/main.go:465, which reports the configured
limit and the measured line count. -/
structure BudgetError where
  limit : Int
  actual : Nat
deriving DecidableEq

/-- The budget gate of src/main.go:460-469: with `maxLines > 0` and
`lineCount > maxLines` the collection fails with the budget error and no
document; otherwise the full document is returned.  `maxLines` is a Go
`int` that the `-max-lines` flag can set to any value, hence `Int`. -/
def checkBudget (maxLines : Int) (patchStr : String) : Except BudgetError String :=
  if 0 < maxLines ∧ maxLines < (countNewlines patchStr : Int) then
    Except.error ⟨maxLines, countNewlines patchStr⟩
  else Except.ok patchStr

/-- src/main.go:319-470, `getStagedChanges`, over the filter/assembly/budget
core: the repository plumbing (worktree, status, HEAD, index, blob reads)
is abstracted into the `StatusEntry` inputs, listed in iteration order.
If no entry survives the filter the function returns `""` before the
budget check (src/main.go:383-385); otherwise the assembled document is
passed through the budget gate. -/
def getStagedChanges (entries : List StatusEntry) (maxLines : Int) :
    Except BudgetError String :=
  if (entries.filter includeEntry).length = 0 then Except.ok ""
  else checkBudget maxLines (renderedDoc entries)

/-- A staged `Added` entry under `vendor/`, as in the spec's end-to-end
example. -/
def vendorEntry : StatusEntry :=
  { path := "vendor/lib.go", staging := .Added, fileBytes := some [112]
    headContent := "", stagedContent := "package lib\n"
    headHash := "", stagedHash := "abcdef0123456789abcdef0123456789abcdef01" }

/-- A staged `Modified` entry whose file the binary detector cannot open. -/
def unreadableEntry : StatusEntry :=
  { path := "a.txt", staging := .Modified, fileBytes := none
    headContent := "x\n", stagedContent := "y\n"
    headHash := "1111111111111111111111111111111111111111"
    stagedHash := "2222222222222222222222222222222222222222" }

/-- A staged `Modified` entry with readable, printable content bytes. -/
def modEntry : StatusEntry :=
  { path := "a.txt", staging := .Modified, fileBytes := some [104, 105]
    headContent := "x\n", stagedContent := "y\n"
    headHash := "1111111111111111111111111111111111111111"
    stagedHash := "2222222222222222222222222222222222222222" }

theorem splitOnChar_ne_nil (sep : Char) (cs : List Char) :
    splitOnChar sep cs ≠ [] := by
  cases cs with
  | nil => simp [splitOnChar]
  | cons c cs =>
    simp only [splitOnChar]
    split
    · simp
    · split <;> simp

theorem joinChar_splitOnChar (sep : Char) (cs : List Char) :
    joinChar sep (splitOnChar sep cs) = cs := by
  induction cs with
  | nil => simp [splitOnChar, joinChar]
  | cons c cs ih =>
    simp only [splitOnChar]
    split
    · rename_i hc
      rcases h : splitOnChar sep cs with _ | ⟨l, ls⟩
      · exact absurd h (splitOnChar_ne_nil sep cs)
      · rw [h] at ih
        subst hc
        simp [joinChar, ih]
    · rcases h : splitOnChar sep cs with _ | ⟨l, ls⟩
      · exact absurd h (splitOnChar_ne_nil sep cs)
      · rw [h] at ih
        cases ls with
        | nil => simp_all [joinChar]
        | cons l' ls' => simp_all [joinChar]

theorem splitOnChar_injective (sep : Char) {a b : List Char}
    (h : splitOnChar sep a = splitOnChar sep b) : a = b := by
  have ha := joinChar_splitOnChar sep a
  have hb := joinChar_splitOnChar sep b
  rw [← ha, ← hb, h]

theorem splitLines_injective {a b : String}
    (h : splitLines a = splitLines b) : a = b := by
  unfold splitLines at h
  by_cases ha : a = "" <;> by_cases hb : b = ""
  · rw [ha, hb]
  · rw [if_pos ha, if_neg hb] at h
    rcases hsp : splitOnChar '\n' b.data with _ | ⟨l, ls⟩
    · exact absurd hsp (splitOnChar_ne_nil _ _)
    · rw [hsp] at h
      simp at h
  · rw [if_neg ha, if_pos hb] at h
    rcases hsp : splitOnChar '\n' a.data with _ | ⟨l, ls⟩
    · exact absurd hsp (splitOnChar_ne_nil _ _)
    · rw [hsp] at h
      simp at h
  · rw [if_neg ha, if_neg hb] at h
    have hmk : Function.Injective String.mk := by
      intro x y hxy
      injection hxy
    have hsplit := List.map_injective_iff.mpr hmk h
    have hdata := splitOnChar_injective '\n' hsplit
    obtain ⟨da⟩ := a
    obtain ⟨db⟩ := b
    exact congrArg String.mk hdata

theorem commonPrefixLen_self (l : List String) :
    commonPrefixLen l l = l.length := by
  induction l with
  | nil => simp [commonPrefixLen]
  | cons a as ih => simp [commonPrefixLen, ih]

theorem commonPrefixLen_le_left (o n : List String) :
    commonPrefixLen o n ≤ o.length := by
  induction o generalizing n with
  | nil => simp [commonPrefixLen]
  | cons a as ih =>
    cases n with
    | nil => simp [commonPrefixLen]
    | cons b bs =>
      simp only [commonPrefixLen]
      split
      · simpa using ih bs
      · simp

theorem commonPrefixLen_le_right (o n : List String) :
    commonPrefixLen o n ≤ n.length := by
  induction o generalizing n with
  | nil => simp [commonPrefixLen]
  | cons a as ih =>
    cases n with
    | nil => simp [commonPrefixLen]
    | cons b bs =>
      simp only [commonPrefixLen]
      split
      · simpa using ih bs
      · simp

theorem take_commonPrefixLen_eq (o n : List String) :
    o.take (commonPrefixLen o n) = n.take (commonPrefixLen o n) := by
  induction o generalizing n with
  | nil => simp [commonPrefixLen]
  | cons a as ih =>
    cases n with
    | nil => simp [commonPrefixLen]
    | cons b bs =>
      simp only [commonPrefixLen]
      split
      · rename_i hab
        simp [hab, ih bs]
      · simp

theorem take_eq_of_le_commonPrefixLen {o n : List String} {k : Nat}
    (h : k ≤ commonPrefixLen o n) : o.take k = n.take k := by
  have h1 : o.take k = (o.take (commonPrefixLen o n)).take k := by
    rw [List.take_take, Nat.min_eq_left h]
  have h2 : n.take k = (n.take (commonPrefixLen o n)).take k := by
    rw [List.take_take, Nat.min_eq_left h]
  rw [h1, h2, take_commonPrefixLen_eq]

theorem renderHunk_ne_empty (o n : List String) : renderHunk o n ≠ "" := by
  intro h
  have hlen := congrArg String.length h
  have h4 : ("@@ -" : String).length = 4 := rfl
  have h0 : ("" : String).length = 0 := rfl
  simp only [renderHunk, mkHunkHeader, String.length_append, h0] at hlen
  omega

theorem eq_of_counts_zero {o n : List String}
    (h1 : o.length - commonPrefixLen o n - diffSuffixLen o n = 0)
    (h2 : n.length - commonPrefixLen o n - diffSuffixLen o n = 0) : o = n := by
  have hpl := commonPrefixLen_le_left o n
  have hpr := commonPrefixLen_le_right o n
  have hsA : diffSuffixLen o n ≤ min o.length n.length - commonPrefixLen o n :=
    Nat.min_le_left _ _
  have hsB : diffSuffixLen o n ≤ commonPrefixLen o.reverse n.reverse :=
    Nat.min_le_right _ _
  have hm1 : min o.length n.length ≤ o.length := Nat.min_le_left _ _
  have hm2 : min o.length n.length ≤ n.length := Nat.min_le_right _ _
  have hmge : commonPrefixLen o n ≤ min o.length n.length := le_min hpl hpr
  have hlo : o.length = commonPrefixLen o n + diffSuffixLen o n := by omega
  have hln : n.length = commonPrefixLen o n + diffSuffixLen o n := by omega
  have htake : o.take (commonPrefixLen o n) = n.take (commonPrefixLen o n) :=
    take_commonPrefixLen_eq o n
  have hrevtake : o.reverse.take (diffSuffixLen o n)
      = n.reverse.take (diffSuffixLen o n) :=
    take_eq_of_le_commonPrefixLen hsB
  have hdropo : o.drop (commonPrefixLen o n) = o.rtake (diffSuffixLen o n) := by
    simp only [List.rtake]
    congr 1
    omega
  have hdropn : n.drop (commonPrefixLen o n) = n.rtake (diffSuffixLen o n) := by
    simp only [List.rtake]
    congr 1
    omega
  have hdrop : o.drop (commonPrefixLen o n) = n.drop (commonPrefixLen o n) := by
    rw [hdropo, hdropn, List.rtake_eq_reverse_take_reverse,
      List.rtake_eq_reverse_take_reverse, hrevtake]
  calc o = o.take (commonPrefixLen o n) ++ o.drop (commonPrefixLen o n) :=
        (List.take_append_drop _ o).symm
    _ = n.take (commonPrefixLen o n) ++ n.drop (commonPrefixLen o n) := by
        rw [htake, hdrop]
    _ = n := List.take_append_drop _ n

theorem generateUnifiedDiffContent_eq_empty_iff (a b : String) :
    generateUnifiedDiffContent a b = "" ↔ a = b := by
  unfold generateUnifiedDiffContent
  split
  · rename_i hcond
    constructor
    · intro _
      exact splitLines_injective (eq_of_counts_zero hcond.1 hcond.2)
    · intro _
      rfl
  · rename_i hcond
    constructor
    · intro h
      exact absurd h (renderHunk_ne_empty _ _)
    · intro hab
      exfalso
      apply hcond
      subst hab
      constructor <;> simp [diffSuffixLen, commonPrefixLen_self]

/-- C1: contrary to the claim, `generateUnifiedDiffContent "" "x\ny\n"`
emits only the hunk header — the header announces three new-side lines
(`+1,3`) but the body contains zero added lines, because the added-lines
loop bound `commonPrefix + newCount - contextLines` (src/main.go:576)
assumes the trailing context was fully appended, which fails when `newEnd`
is clipped to `len(newLines)` (src/main.go:551-554). -/
theorem c1_creation_diff_eval :
    generateUnifiedDiffContent "" "x\ny\n" = "@@ -1,0 +1,3 @@\n" := by
  decide

/-- C2: contrary to the claim, `generateUnifiedDiffContent "x\n" "y\n"`
emits the hunk header followed by a single context line (the empty line
after the trailing newline) and neither `-x` nor `+y`: both emission-loop
bounds `commonPrefix + count - contextLines` (src/main.go:569, 576)
collapse the loops because the window is clipped at the end of the
two-line lists. -/
theorem c2_modification_diff_eval :
    generateUnifiedDiffContent "x\n" "y\n" = "@@ -1,2 +1,2 @@\n \n" := by
  decide

/-- C3: contrary to the claim, `generateUnifiedDiffContent "x\n" ""`
emits only the hunk header and no `-x` line, for the same clipped-window
reason as C1. -/
theorem c3_deletion_diff_eval :
    generateUnifiedDiffContent "x\n" "" = "@@ -1,2 +1,0 @@\n" := by
  decide

/-- C4: the diff synthesizer applied to any text and itself returns the
empty string — no hunk header and no lines. -/
theorem c4_diff_self_empty (a : String) :
    generateUnifiedDiffContent a a = "" :=
  (generateUnifiedDiffContent_eq_empty_iff a a).mpr rfl

/-- C10: the diff synthesizer returns empty output iff the two texts are
equal, and on distinct texts its output begins with a hunk header
`@@ -<oldStart>,<oldCount> +<newStart>,<newCount> @@` whose start
positions are 1-based (both at least 1). -/
theorem c10_empty_iff_eq_and_header_shape (a b : String) :
    (generateUnifiedDiffContent a b = "" ↔ a = b)
    ∧ (a ≠ b → ∃ os oc ns nc rest,
        generateUnifiedDiffContent a b = mkHunkHeader os oc ns nc ++ rest
        ∧ 1 ≤ os ∧ 1 ≤ ns) := by
  refine ⟨generateUnifiedDiffContent_eq_empty_iff a b, fun hne => ?_⟩
  unfold generateUnifiedDiffContent
  rw [if_neg (fun hcond =>
    hne (splitLines_injective (eq_of_counts_zero hcond.1 hcond.2)))]
  exact ⟨oldStartIdx _ _ + 1, oldEndIdx _ _ - oldStartIdx _ _,
    newStartIdx _ _ + 1, newEndIdx _ _ - newStartIdx _ _, hunkBody _ _,
    rfl, Nat.succ_le_succ (Nat.zero_le _), Nat.succ_le_succ (Nat.zero_le _)⟩

/-- Witness for C10 at the concrete pair `("", "x\n")`. -/
theorem c10_witness :
    (generateUnifiedDiffContent "" "x\n" = "" ↔ ("" : String) = "x\n")
    ∧ (∃ os oc ns nc rest,
        generateUnifiedDiffContent "" "x\n" = mkHunkHeader os oc ns nc ++ rest
        ∧ 1 ≤ os ∧ 1 ≤ ns) :=
  ⟨(c10_empty_iff_eq_and_header_shape "" "x\n").1,
   (c10_empty_iff_eq_and_header_shape "" "x\n").2 (by decide)⟩

/-- C6: a path is ignored iff some slash-delimited segment of it equals
one of the built-in ignored directory names; in particular
`"vendor_backup/x"` is not ignored. -/
theorem c6_ignored_iff_segment :
    (∀ P : String, shouldIgnorePath P = true ↔
      ∃ seg ∈ (splitOnChar '/' P.data).map String.mk, seg ∈ ignoredDirs)
    ∧ shouldIgnorePath "vendor_backup/x" = false := by
  constructor
  · intro P
    simp only [shouldIgnorePath, List.any_eq_true, beq_iff_eq]
    constructor
    · rintro ⟨part, hpart, d, hd, heq⟩
      exact ⟨part, hpart, heq ▸ hd⟩
    · rintro ⟨seg, hseg, hmem⟩
      exact ⟨seg, hseg, seg, hmem, rfl⟩
  · decide

/-- C7: the binary detector returns `ok false` on an empty sample,
`ok true` when the sample holds a NUL byte, otherwise reports binary
exactly when the printable fraction of the sample is strictly below
`0.95`, and errors when the file cannot be opened. -/
theorem c7_isBinary_classification :
    (∀ bytes : List Nat, bytes = [] → isBinary (some bytes) = Except.ok false)
    ∧ (∀ bytes : List Nat, 0 ∈ bytes.take 8192 →
        isBinary (some bytes) = Except.ok true)
    ∧ (∀ bytes : List Nat, bytes ≠ [] → ¬ 0 ∈ bytes.take 8192 →
        (isBinary (some bytes) = Except.ok true ↔
          ((bytes.take 8192).countP printableByte : ℚ)
            / ((bytes.take 8192).length : ℚ) < 95 / 100))
    ∧ isBinary none = Except.error () := by
  refine ⟨?_, ?_, ?_, rfl⟩
  · intro bytes h
    subst h
    rfl
  · intro bytes h
    have hlen : ¬ (bytes.take 8192).length = 0 := by
      intro h0
      rw [List.length_eq_zero] at h0
      rw [h0] at h
      simp at h
    have hc : (bytes.take 8192).contains 0 = true := List.elem_iff.mpr h
    simp only [isBinary]
    rw [if_neg hlen, if_pos hc]
  · intro bytes hne h0
    have hlen : ¬ (bytes.take 8192).length = 0 := by
      simp [List.length_eq_zero, List.take_eq_nil_iff, hne]
    have hnc : ¬ (bytes.take 8192).contains 0 = true := by
      intro hc
      exact h0 (List.elem_iff.mp hc)
    have hpos : 0 < (bytes.take 8192).length := Nat.pos_of_ne_zero hlen
    simp only [isBinary]
    rw [if_neg hlen, if_neg hnc]
    rw [div_lt_div_iff₀ (by exact_mod_cast hpos) (by norm_num)]
    simp only [Except.ok.injEq, decide_eq_true_eq]
    norm_cast
    omega

/-- Witness for C7 on the empty file, a NUL-containing file, a readable
one-byte file, and an unopenable file. -/
theorem c7_witness :
    isBinary (some ([] : List Nat)) = Except.ok false
    ∧ isBinary (some [0]) = Except.ok true
    ∧ (isBinary (some [7]) = Except.ok true ↔
        ((([7] : List Nat).take 8192).countP printableByte : ℚ)
          / ((([7] : List Nat).take 8192).length : ℚ) < 95 / 100)
    ∧ isBinary none = Except.error () :=
  ⟨c7_isBinary_classification.1 [] rfl,
   c7_isBinary_classification.2.1 [0] (by decide),
   c7_isBinary_classification.2.2.1 [7] (by decide) (by decide),
   c7_isBinary_classification.2.2.2⟩

/-- C8: a status entry is excluded exactly when it is Unmodified or
Untracked, or its path is flagged by the classifier, or it is not Deleted
and the binary detector classifies it as binary; an excluded entry
contributes nothing to the rendered document (and hence zero lines to the
budget), and a Deleted entry is never excluded for being binary. -/
theorem c8_exclusion_characterization :
    (∀ e : StatusEntry, includeEntry e = false ↔
      ((e.staging = .Unmodified ∨ e.staging = .Untracked)
        ∨ shouldIgnorePath e.path = true
        ∨ (e.staging ≠ .Deleted ∧ isBinary e.fileBytes = Except.ok true)))
    ∧ (∀ (e : StatusEntry) (es : List StatusEntry), includeEntry e = false →
        renderedDoc (e :: es) = renderedDoc es) := by
  constructor
  · intro e
    unfold includeEntry
    split
    · rename_i h
      simp [h]
    · rename_i h
      split
      · rename_i h2
        simp [h, h2]
      · rename_i h2
        split
        · rename_i h3
          cases hb : isBinary e.fileBytes with
          | error u => simp [h, h2, h3, hb]
          | ok binary => cases binary <;> simp [h, h2, h3, hb]
        · rename_i h3
          simp [h, h2, h3]
  · intro e es h
    simp [renderedDoc, List.filter_cons, h]

/-- Witness for C8: the spec's `vendor/lib.go` Added entry is excluded
and leaves the rendered document unchanged. -/
theorem c8_witness :
    renderedDoc [vendorEntry] = renderedDoc [] :=
  c8_exclusion_characterization.2 vendorEntry [] (by decide)

/-- C9: when the binary detector errors on a staged, non-ignored,
non-deleted entry, the entry is still included: its block is rendered and
the remaining entries are processed as usual. -/
theorem c9_detector_error_includes_file :
    ∀ (e : StatusEntry) (es : List StatusEntry),
      e.staging ≠ .Unmodified → e.staging ≠ .Untracked →
      shouldIgnorePath e.path = false → e.staging ≠ .Deleted →
      isBinary e.fileBytes = Except.error () →
      includeEntry e = true
      ∧ renderedDoc (e :: es) = fileBlock e ++ renderedDoc es := by
  intro e es h1 h2 h3 h4 h5
  have hinc : includeEntry e = true := by
    simp [includeEntry, h1, h2, h3, h4, h5]
  exact ⟨hinc, by simp [renderedDoc, List.filter_cons, hinc, concatBlocks]⟩

/-- Witness for C9: a Modified entry whose file cannot be opened is
included and rendered. -/
theorem c9_witness :
    includeEntry unreadableEntry = true
    ∧ renderedDoc [unreadableEntry]
        = fileBlock unreadableEntry ++ renderedDoc [] :=
  c9_detector_error_includes_file unreadableEntry []
    (by decide) (by decide) (by decide) (by decide) rfl

/-- C5: with `maxLines > 0`, a total rendered line count equal to
`maxLines` succeeds with the full document, a count above `maxLines`
fails with a budget error carrying the limit and the measured total (and
no document), and `maxLines ≤ 0` disables the budget entirely. -/
theorem c5_budget_gate :
    ∀ (entries : List StatusEntry) (maxLines : Int),
      (0 < maxLines → (countNewlines (renderedDoc entries) : Int) = maxLines →
        getStagedChanges entries maxLines = Except.ok (renderedDoc entries))
      ∧ (0 < maxLines → maxLines < (countNewlines (renderedDoc entries) : Int) →
        getStagedChanges entries maxLines
          = Except.error ⟨maxLines, countNewlines (renderedDoc entries)⟩)
      ∧ (maxLines ≤ 0 →
        getStagedChanges entries maxLines = Except.ok (renderedDoc entries)) := by
  intro entries maxLines
  unfold getStagedChanges
  split
  · rename_i h
    rw [List.length_eq_zero] at h
    have hdoc : renderedDoc entries = "" := by
      simp [renderedDoc, h, concatBlocks]
    rw [hdoc]
    have hcount : countNewlines "" = 0 := rfl
    refine ⟨fun _ _ => rfl, fun hpos hlt => ?_, fun _ => rfl⟩
    rw [hcount] at hlt
    omega
  · unfold checkBudget
    split
    · rename_i hc
      refine ⟨fun hpos heq => ?_, fun _ _ => rfl, fun hle => ?_⟩
      · exact absurd heq (by omega)
      · exact absurd hle (by omega)
    · rename_i hc
      exact ⟨fun _ _ => rfl, fun hpos hlt => absurd ⟨hpos, hlt⟩ hc,
        fun _ => rfl⟩

/-- Witness for C5 on a one-entry collection whose document renders six
lines: limit 6 succeeds, limit 5 fails with both numbers, limit -1 never
fails. -/
theorem c5_witness :
    getStagedChanges [modEntry] 6 = Except.ok (renderedDoc [modEntry])
    ∧ getStagedChanges [modEntry] 5
        = Except.error ⟨5, countNewlines (renderedDoc [modEntry])⟩
    ∧ getStagedChanges [modEntry] (-1) = Except.ok (renderedDoc [modEntry]) :=
  ⟨(c5_budget_gate [modEntry] 6).1 (by decide) (by decide),
   (c5_budget_gate [modEntry] 5).2.1 (by decide) (by decide),
   (c5_budget_gate [modEntry] (-1)).2.2 (by decide)⟩

end Describe
